import Mathlib

/-
  Shallow embedding of the Monaco-protocol copy-trading bot
  (src/bot.ts, src/prediction-markets/monaco-position-manager.ts,
  src/prediction-markets/monaco-protocol integration).

  Ledger amounts and prices are modelled as rationals; signatures,
  addresses and calendar dates as strings.  The ledger RPC client and
  the order-placement SDK are modelled as an oracle structure of
  functions (`Chain`), and each step of the pipeline additionally
  returns the list of observable events (transaction fetches,
  classifications, parse attempts, share-method invocations and any
  underlying place-order calls) it performed, so that absence of
  re-dispatch is a statement about the event trace.

  The wiring matters: bot.ts imports and instantiates the generic
  PositionManager of position-manager.ts (the three-argument
  constructor), whose four share methods unconditionally throw before
  placing any order.  The MonacoPositionManager of
  monaco-position-manager.ts, which would place back/lay orders with
  0.99/0.01 default prices, exists in the repository but is never
  imported by bot.ts; it is embedded here separately for comparison
  and is not on the dispatch path.
-/

namespace CopyBot

/-- Canonical outcome of a binary market (bot.ts `ParsedTrade.outcome`). -/
inductive Outcome where
  | YES
  | NO
deriving DecidableEq, Repr

/-- Canonical order side (bot.ts `ParsedTrade.action`). -/
inductive Action where
  | BUY
  | SELL
deriving DecidableEq, Repr

/-- bot.ts `ParsedTrade`. -/
structure ParsedTrade where
  marketAddress : String
  outcome : Outcome
  action : Action
  amount : ℚ
  price : Option ℚ
deriving DecidableEq, Repr

/-- config.ts `BotConfig` (the fields the pipeline reads). -/
structure BotConfig where
  targetAddresses : List String
  predictionMarketPrograms : List String
  maxPositionSize : ℚ
  maxDailyLoss : ℚ
  copyMultiplier : ℚ
deriving DecidableEq, Repr

/-- One instruction of a raw ledger transaction.  The program it runs is
referenced either by direct value (`programIdDirect`, JS `ix.programId`) or
by index into the account list (`programIdIndex`, JS `ix.programIdIndex`);
`accounts` are indices into the account list. -/
structure Instruction where
  programIdDirect : Option String
  programIdIndex : Option ℕ
  accounts : List ℕ
deriving DecidableEq, Repr

/-- A raw ledger transaction body (`tx.transaction.message`): an ordered
account list and an ordered instruction list. -/
structure RawTransaction where
  accountKeys : List String
  instructions : List Instruction
deriving DecidableEq, Repr

/-- The order argument of the underlying Monaco `client.orders.placeOrder`
call (monaco-protocol integration). -/
structure PlacedOrder where
  marketPk : String
  outcomeIndex : ℕ
  forOutcome : Bool
  stake : ℚ
  expectedPrice : ℚ
deriving DecidableEq, Repr

/-- The four dispatch routes of bot.ts executeCopyTrade lines 252-265:
which share method of the wired position manager is invoked. -/
inductive SharePath where
  | buyYes
  | buyNo
  | sellYes
  | sellNo
deriving DecidableEq, Repr

/-- Observable pipeline events, tagged with the source signature that
caused them.  `shareCall` is the invocation of a share method of the
wired position manager (the dispatch attempt); `adapterOrder` is an
underlying place-order call to the execution adapter made inside a
share method. -/
inductive Event where
  | fetchTx (sig : String)
  | classify (sig : String) (result : Bool)
  | parseTrade (sig : String)
  | shareCall (sourceSig : String) (path : SharePath) (marketAddress : String) (amount : ℚ)
  | adapterOrder (sourceSig : String) (order : PlacedOrder)
deriving DecidableEq, Repr

/-- The source signature an event concerns. -/
def eventSig : Event → String
  | Event.fetchTx s => s
  | Event.classify s _ => s
  | Event.parseTrade s => s
  | Event.shareCall s _ _ _ => s
  | Event.adapterOrder s _ => s

/-- Whether an event is an attempt to place an order: a share-method
invocation or an underlying adapter call. -/
def isOrderEvent : Event → Bool
  | Event.shareCall _ _ _ _ => true
  | Event.adapterOrder _ _ => true
  | _ => false

/-- Whether an event is an underlying place-order call reaching the
execution adapter. -/
def isAdapterOrderEvent : Event → Bool
  | Event.adapterOrder _ _ => true
  | _ => false

/-- Mutable bot state (bot.ts fields `lastProcessedSignatures`,
`dailyLoss`, `lastResetDate`).  The JS `Set<string>` is modelled as a
list queried through `List.contains`. -/
structure BotState where
  lastProcessedSignatures : List String
  dailyLoss : ℚ
  lastResetDate : String
deriving DecidableEq, Repr

/-- External collaborators: the ledger RPC client and the order
placement endpoint, as an oracle of pure functions.  `adapter` models
the Monaco `client.orders.placeOrder` endpoint, returning the
submission signature on success (`response.data.tnxSignature`) or an
error; the wired pipeline never reaches it, because the position
manager bot.ts instantiates throws before placing any order. -/
structure Chain where
  getSignaturesForAddress : String → List String
  getTransaction : String → Option RawTransaction
  adapter : PlacedOrder → Except String String

/-- Result of one share-method invocation: the underlying place-order
calls the method made before returning or throwing, and its outcome
(a submission signature, or the thrown error). -/
structure ShareCallResult where
  orders : List PlacedOrder
  outcome : Except String String
deriving Repr

/-- JS `x || d` on an optional numeric argument: `undefined` and `0` both
fall back to the default. -/
def jsOrDefault (x : Option ℚ) (d : ℚ) : ℚ :=
  match x with
  | some p => if p = 0 then d else p
  | none => d

/-- position-manager.ts PositionManager.buyYesShares — a method of the
class bot.ts actually instantiates (the three-argument constructor):
it builds an empty transaction and then unconditionally throws
`Not implemented - platform-specific`, making no place-order call. -/
def stubBuyYesShares (_marketAddress : String) (_amount : ℚ) (_maxPrice : Option ℚ) :
    ShareCallResult :=
  { orders := [], outcome := Except.error "Not implemented - platform-specific" }

/-- position-manager.ts PositionManager.buyNoShares: unconditionally
throws, no place-order call. -/
def stubBuyNoShares (_marketAddress : String) (_amount : ℚ) (_maxPrice : Option ℚ) :
    ShareCallResult :=
  { orders := [], outcome := Except.error "Not implemented - platform-specific" }

/-- position-manager.ts PositionManager.sellYesShares: unconditionally
throws, no place-order call. -/
def stubSellYesShares (_marketAddress : String) (_shares : ℚ) (_minPrice : Option ℚ) :
    ShareCallResult :=
  { orders := [], outcome := Except.error "Not implemented - platform-specific" }

/-- position-manager.ts PositionManager.sellNoShares: unconditionally
throws, no place-order call. -/
def stubSellNoShares (_marketAddress : String) (_shares : ℚ) (_minPrice : Option ℚ) :
    ShareCallResult :=
  { orders := [], outcome := Except.error "Not implemented - platform-specific" }

/-- monaco-protocol integration `placeBackOrder`: one `placeOrder` call
with `forOutcome := true` (back = buying YES exposure).  This module and
the three Monaco share methods below exist in the repository
(monaco-position-manager.ts) but are never imported by bot.ts; they are
embedded for comparison only and are not on the dispatch path. -/
def placeBackOrder (marketPk : String) (outcomeIndex : ℕ) (stake expectedPrice : ℚ) :
    PlacedOrder :=
  { marketPk := marketPk, outcomeIndex := outcomeIndex, forOutcome := true,
    stake := stake, expectedPrice := expectedPrice }

/-- monaco-protocol integration `placeLayOrder`: one `placeOrder` call
with `forOutcome := false` (lay = selling YES exposure). -/
def placeLayOrder (marketPk : String) (outcomeIndex : ℕ) (stake expectedPrice : ℚ) :
    PlacedOrder :=
  { marketPk := marketPk, outcomeIndex := outcomeIndex, forOutcome := false,
    stake := stake, expectedPrice := expectedPrice }

/-- MonacoPositionManager.buyYesShares: back order, default ceiling 0.99
when no max price is passed. -/
def buyYesShares (marketAddress : String) (amount : ℚ) (maxPrice : Option ℚ) : PlacedOrder :=
  placeBackOrder marketAddress 0 amount (jsOrDefault maxPrice (99/100))

/-- MonacoPositionManager.buyNoShares: lay order, default ceiling 0.99. -/
def buyNoShares (marketAddress : String) (amount : ℚ) (maxPrice : Option ℚ) : PlacedOrder :=
  placeLayOrder marketAddress 0 amount (jsOrDefault maxPrice (99/100))

/-- MonacoPositionManager.sellYesShares: lay order, default floor 0.01. -/
def sellYesShares (marketAddress : String) (shares : ℚ) (minPrice : Option ℚ) : PlacedOrder :=
  placeLayOrder marketAddress 0 shares (jsOrDefault minPrice (1/100))

/-- MonacoPositionManager.sellNoShares: back order, default floor 0.01. -/
def sellNoShares (marketAddress : String) (shares : ℚ) (minPrice : Option ℚ) : PlacedOrder :=
  placeBackOrder marketAddress 0 shares (jsOrDefault minPrice (1/100))

/-- bot.ts `isPredictionMarketTransaction`: keep the account keys that
are configured program identifiers and test whether any remain.  Only
the top-level account list is inspected. -/
def isPredictionMarketTransaction (cfg : BotConfig) (tx : RawTransaction) : Bool :=
  decide (0 < (tx.accountKeys.filter
    (fun id => cfg.predictionMarketPrograms.contains id)).length)

/-- bot.ts `parsePredictionMarketTransaction` inner resolution of an
instruction program id: the direct value when present, otherwise the
account-list entry at `programIdIndex`. -/
def ixResolvedProgramId (accountKeys : List String) (ix : Instruction) : Option String :=
  match ix.programIdDirect with
  | some p => some p
  | none =>
    match ix.programIdIndex with
    | some i => accountKeys.get? i
    | none => none

/-- bot.ts `parsePredictionMarketTransaction` instruction body: the
market account index is the first referenced account (falling back to 0,
as JS `ix.accounts?.[0] || 0`); a missing or empty market key aborts this
instruction.  The decoded fields are the placeholder values the source
returns (outcome YES, action BUY, amount 0.1, no price). -/
def tryParseInstruction (accountKeys : List String) (ix : Instruction) : Option ParsedTrade :=
  match accountKeys.get? (ix.accounts.headD 0) with
  | none => none
  | some addr =>
    if addr = "" then none
    else some { marketAddress := addr, outcome := Outcome.YES, action := Action.BUY,
                amount := 1/10, price := none }

/-- bot.ts inner loop over instructions: first instruction whose resolved
program id matches and whose body parses. -/
def parseTradeForProgram (accountKeys : List String) (programId : String) :
    List Instruction → Option ParsedTrade
  | [] => none
  | ix :: rest =>
    if ixResolvedProgramId accountKeys ix = some programId then
      match tryParseInstruction accountKeys ix with
      | some t => some t
      | none => parseTradeForProgram accountKeys programId rest
    else parseTradeForProgram accountKeys programId rest

/-- bot.ts outer loop over configured programs: skip programs not present
in the account list, otherwise try their instructions. -/
def parseOverPrograms (tx : RawTransaction) : List String → Option ParsedTrade
  | [] => none
  | p :: ps =>
    if tx.accountKeys.contains p then
      match parseTradeForProgram tx.accountKeys p tx.instructions with
      | some t => some t
      | none => parseOverPrograms tx ps
    else parseOverPrograms tx ps

/-- bot.ts `parsePredictionMarketTransaction`. -/
def parsePredictionMarketTransaction (cfg : BotConfig) (tx : RawTransaction) :
    Option ParsedTrade :=
  parseOverPrograms tx cfg.predictionMarketPrograms

/-- The route bot.ts executeCopyTrade selects from `(action, outcome)`
(lines 253-264). -/
def sharePath (action : Action) (outcome : Outcome) : SharePath :=
  match action, outcome with
  | Action.BUY, Outcome.YES => SharePath.buyYes
  | Action.BUY, Outcome.NO => SharePath.buyNo
  | Action.SELL, Outcome.YES => SharePath.sellYes
  | Action.SELL, Outcome.NO => SharePath.sellNo

/-- Invoke the share method selected by the route on the wired position
manager — the generic PositionManager bot.ts instantiates, every one of
whose share methods throws before any place-order call.  bot.ts passes
the market address and adjusted amount and no price bound. -/
def dispatchShareCall (path : SharePath) (marketAddress : String) (amount : ℚ) :
    ShareCallResult :=
  match path with
  | SharePath.buyYes => stubBuyYesShares marketAddress amount none
  | SharePath.buyNo => stubBuyNoShares marketAddress amount none
  | SharePath.sellYes => stubSellYesShares marketAddress amount none
  | SharePath.sellNo => stubSellNoShares marketAddress amount none

/-- bot.ts `executeCopyTrade`: pick the first position manager (absent
when no programs are configured), scale the amount by the copy
multiplier, refuse when it exceeds the position cap, otherwise invoke
the routed share method of the wired position manager.  The trace
records the share-method invocation and any underlying place-order
calls it made (none, for the wired stub).  The thrown error is caught;
the daily-loss update in the catch block is commented out in the source,
so the state is returned unchanged on every path. -/
def executeCopyTrade (_chain : Chain) (cfg : BotConfig) (st : BotState)
    (srcSig : String) (trade : ParsedTrade) : BotState × List Event :=
  if cfg.predictionMarketPrograms.isEmpty then (st, [])
  else
    if trade.amount * cfg.copyMultiplier > cfg.maxPositionSize then (st, [])
    else
      (st,
        Event.shareCall srcSig (sharePath trade.action trade.outcome) trade.marketAddress
            (trade.amount * cfg.copyMultiplier) ::
          ((dispatchShareCall (sharePath trade.action trade.outcome) trade.marketAddress
              (trade.amount * cfg.copyMultiplier)).orders).map
            (Event.adapterOrder srcSig))

/-- `lastProcessedSignatures.add(sig)`. -/
def markSeen (st : BotState) (sig : String) : BotState :=
  { st with lastProcessedSignatures := sig :: st.lastProcessedSignatures }

/-- The per-signature body of bot.ts `monitorAddress` (lines 89-104):
skip signatures already in the set; otherwise fetch the transaction,
classify it, and when it is a prediction-market transaction parse it and
copy the trade; in every non-skipped case the signature is then marked
seen. -/
def processSignature (chain : Chain) (cfg : BotConfig) (st : BotState) (sig : String) :
    BotState × List Event :=
  if st.lastProcessedSignatures.contains sig then (st, [])
  else
    match chain.getTransaction sig with
    | none => (markSeen st sig, [Event.fetchTx sig])
    | some tx =>
      if isPredictionMarketTransaction cfg tx then
        match parsePredictionMarketTransaction cfg tx with
        | none =>
          (markSeen st sig, [Event.fetchTx sig, Event.classify sig true, Event.parseTrade sig])
        | some trade =>
          let r := executeCopyTrade chain cfg st sig trade
          (markSeen r.1 sig,
            Event.fetchTx sig :: Event.classify sig true :: Event.parseTrade sig :: r.2)
      else
        (markSeen st sig, [Event.fetchTx sig, Event.classify sig false])

/-- Fold of `processSignature` over the signature list returned for one
address. -/
def monitorSignatures (chain : Chain) (cfg : BotConfig) (st : BotState) :
    List String → BotState × List Event
  | [] => (st, [])
  | sig :: rest =>
    let r := processSignature chain cfg st sig
    let r2 := monitorSignatures chain cfg r.1 rest
    (r2.1, r.2 ++ r2.2)

/-- bot.ts `monitorAddress`: query recent signatures for the address and
process each in the returned order. -/
def monitorAddress (chain : Chain) (cfg : BotConfig) (st : BotState)
    (targetAddress : String) : BotState × List Event :=
  monitorSignatures chain cfg st (chain.getSignaturesForAddress targetAddress)

/-- The per-cycle loop over all watched addresses (bot.ts lines 68-70). -/
def processAddresses (chain : Chain) (cfg : BotConfig) (st : BotState) :
    List String → BotState × List Event
  | [] => (st, [])
  | a :: rest =>
    let r := monitorAddress chain cfg st a
    let r2 := processAddresses chain cfg r.1 rest
    (r2.1, r.2 ++ r2.2)

/-- bot.ts `resetDailyLossIfNeeded`: zero the daily loss and update the
reset date when the calendar date changed. -/
def resetDailyLossIfNeeded (st : BotState) (today : String) : BotState :=
  if today ≠ st.lastResetDate then
    { st with dailyLoss := 0, lastResetDate := today }
  else st

/-- One iteration of bot.ts `monitorLoop` (lines 58-72): reset the daily
loss on date rollover, then stop the whole cycle when the daily loss
reaches the cap, otherwise process every watched address. -/
def monitorCycle (chain : Chain) (cfg : BotConfig) (st : BotState) (today : String) :
    BotState × List Event :=
  if (resetDailyLossIfNeeded st today).dailyLoss ≥ cfg.maxDailyLoss then
    (resetDailyLossIfNeeded st today, [])
  else
    processAddresses chain cfg (resetDailyLossIfNeeded st today) cfg.targetAddresses

/-- Modelled from the spec (section 4.2 / classifier no-false-negative
claim), for refinement comparison only: the configured program id appears
anywhere — in the top-level account list, or as an instruction program
reference given by direct value or by index into the account list. -/
def mentionsConfiguredProgram (cfg : BotConfig) (tx : RawTransaction) : Bool :=
  tx.accountKeys.any (fun k => cfg.predictionMarketPrograms.contains k) ||
  tx.instructions.any (fun ix =>
    (match ix.programIdDirect with
     | some p => cfg.predictionMarketPrograms.contains p
     | none => false) ||
    (match ix.programIdIndex with
     | some i =>
       match tx.accountKeys.get? i with
       | some k => cfg.predictionMarketPrograms.contains k
       | none => false
     | none => false))

/-- Modelled from the spec (section 4.6 tolerance band), for refinement
comparison only: BUY pays up to price times 1.01 (default ceiling 0.99),
SELL accepts down to price times 0.99 (default floor 0.01). -/
def specLimitPrice (action : Action) (price : Option ℚ) : ℚ :=
  match action, price with
  | Action.BUY, some p => p * (101/100)
  | Action.BUY, none => 99/100
  | Action.SELL, some p => p * (99/100)
  | Action.SELL, none => 1/100

/-- A small configuration: two watched addresses, one configured
program, position cap 1, daily-loss cap 5, multiplier 1. -/
def cfgW : BotConfig :=
  { targetAddresses := ["A", "B"], predictionMarketPrograms := ["PROG"],
    maxPositionSize := 1, maxDailyLoss := 5, copyMultiplier := 1 }

/-- The risk-cap example configuration of the spec: cap 1, multiplier 2. -/
def cfgRisk : BotConfig :=
  { targetAddresses := ["A"], predictionMarketPrograms := ["PROG"],
    maxPositionSize := 1, maxDailyLoss := 5, copyMultiplier := 2 }

/-- A transaction that classifies and parses: the configured program is
account 0, referenced by index from the instruction, and the market
account is account 1. -/
def txGood : RawTransaction :=
  { accountKeys := ["PROG", "M"],
    instructions := [{ programIdDirect := none, programIdIndex := some 0, accounts := [1] }] }

/-- A transaction that classifies (program id in the account list) but
has no instructions, so decoding yields no trade. -/
def txUnparsable : RawTransaction :=
  { accountKeys := ["PROG"], instructions := [] }

/-- A transaction whose only mention of the configured program is an
instruction program reference by direct value; the top-level account
list does not contain it. -/
def txDirectOnly : RawTransaction :=
  { accountKeys := ["AAA"],
    instructions := [{ programIdDirect := some "PROG", programIdIndex := none, accounts := [] }] }

/-- A ledger oracle whose adapter accepts every order. -/
def okChain : Chain :=
  { getSignaturesForAddress := fun a =>
      if a = "A" then ["S", "T"] else if a = "B" then ["S"] else [],
    getTransaction := fun s => if s = "S" then some txGood else none,
    adapter := fun _ => Except.ok "SUB" }

/-- A ledger oracle whose adapter rejects every order. -/
def failChain : Chain :=
  { getSignaturesForAddress := fun _ => ["S"],
    getTransaction := fun s => if s = "S" then some txUnparsable else none,
    adapter := fun _ => Except.error "market closed" }

/-- Fresh state: empty processed set, zero daily loss. -/
def st0 : BotState :=
  { lastProcessedSignatures := [], dailyLoss := 0, lastResetDate := "d1" }

/-- State in which signature S has already been processed. -/
def stSeen : BotState :=
  { lastProcessedSignatures := ["S"], dailyLoss := 0, lastResetDate := "d1" }

/-- State at the daily-loss cap. -/
def stLoss : BotState :=
  { lastProcessedSignatures := [], dailyLoss := 5, lastResetDate := "d1" }

/-- A BUY YES trade with a present source price of 0.50. -/
def c2Trade : ParsedTrade :=
  { marketAddress := "M", outcome := Outcome.YES, action := Action.BUY,
    amount := 1/10, price := some (1/2) }

/-- A BUY YES trade of amount 0.1 with no source price. -/
def c9Trade : ParsedTrade :=
  { marketAddress := "M", outcome := Outcome.YES, action := Action.BUY,
    amount := 1/10, price := none }

/-- Source trade of amount 0.6 (adjusted 1.2 under multiplier 2). -/
def trade06 : ParsedTrade :=
  { marketAddress := "M", outcome := Outcome.YES, action := Action.BUY,
    amount := 3/5, price := none }

/-- Source trade of amount 0.4 (adjusted 0.8 under multiplier 2). -/
def trade04 : ParsedTrade :=
  { marketAddress := "M", outcome := Outcome.YES, action := Action.BUY,
    amount := 2/5, price := none }

/-- Every share method of the wired position manager returns no orders
and the thrown error, whatever the route and arguments. -/
theorem dispatchShareCall_stub (path : SharePath) (marketAddress : String) (amount : ℚ) :
    dispatchShareCall path marketAddress amount =
      { orders := [], outcome := Except.error "Not implemented - platform-specific" } := by
  cases path <;> rfl

/-- `executeCopyTrade` never mutates the bot state: in particular the
daily loss is unchanged on denial and on the (always failing) dispatch
attempt (the update in the catch block is commented out in the source). -/
theorem executeCopyTrade_fst (chain : Chain) (cfg : BotConfig) (st : BotState)
    (srcSig : String) (trade : ParsedTrade) :
    (executeCopyTrade chain cfg st srcSig trade).1 = st := by
  unfold executeCopyTrade
  split
  · rfl
  split <;> rfl

/-- Every order-attempt event emitted by `executeCopyTrade` carries the
source signature it was invoked for. -/
theorem executeCopyTrade_events_sig (chain : Chain) (cfg : BotConfig) (st : BotState)
    (srcSig : String) (trade : ParsedTrade) :
    ∀ e ∈ (executeCopyTrade chain cfg st srcSig trade).2, eventSig e = srcSig := by
  unfold executeCopyTrade
  split
  · simp
  split
  · simp
  intro e he
  rcases List.mem_cons.mp he with rfl | he
  · rfl
  · obtain ⟨o, ho, rfl⟩ := List.mem_map.mp he
    rfl

/-- A signature already in the set is skipped outright: no state change
and no events. -/
theorem processSignature_seen (chain : Chain) (cfg : BotConfig) (st : BotState)
    (sig : String) (h : st.lastProcessedSignatures.contains sig = true) :
    processSignature chain cfg st sig = (st, []) := by
  have h2 : sig ∈ st.lastProcessedSignatures := by simpa using h
  unfold processSignature
  simp [h2]

/-- After `processSignature`, the inspected signature is in the set. -/
theorem processSignature_marks (chain : Chain) (cfg : BotConfig) (st : BotState)
    (sig : String) :
    (processSignature chain cfg st sig).1.lastProcessedSignatures.contains sig = true := by
  unfold processSignature
  split
  · simp_all
  split
  · simp [markSeen]
  split
  · split
    · simp [markSeen]
    · simp [markSeen]
  · simp [markSeen]

/-- `processSignature` only grows the processed-signature set. -/
theorem processSignature_preserves (chain : Chain) (cfg : BotConfig) (st : BotState)
    (sig s : String) (h : st.lastProcessedSignatures.contains s = true) :
    (processSignature chain cfg st sig).1.lastProcessedSignatures.contains s = true := by
  unfold processSignature
  split
  · simpa using h
  split
  · simp [markSeen]; simp at h; right; exact h
  split
  · split
    · simp [markSeen]; simp at h; right; exact h
    · simp [markSeen, executeCopyTrade_fst]; simp at h; right; exact h
  · simp [markSeen]; simp at h; right; exact h

/-- Every event emitted by `processSignature` concerns the inspected
signature. -/
theorem processSignature_events_sig (chain : Chain) (cfg : BotConfig) (st : BotState)
    (sig : String) :
    ∀ e ∈ (processSignature chain cfg st sig).2, eventSig e = sig := by
  unfold processSignature
  split
  · simp
  split
  · simp [eventSig]
  split
  · split
    · simp [eventSig]
    · intro e he
      simp only at he
      rcases List.mem_cons.mp he with rfl | he
      · rfl
      rcases List.mem_cons.mp he with rfl | he
      · rfl
      rcases List.mem_cons.mp he with rfl | he
      · rfl
      exact executeCopyTrade_events_sig chain cfg st sig _ e he
  · simp [eventSig]

/-- `monitorSignatures` only grows the processed-signature set. -/
theorem monitorSignatures_preserves (chain : Chain) (cfg : BotConfig) (s : String) :
    ∀ (sigs : List String) (st : BotState),
      st.lastProcessedSignatures.contains s = true →
      (monitorSignatures chain cfg st sigs).1.lastProcessedSignatures.contains s = true := by
  intro sigs
  induction sigs with
  | nil => intro st h; exact h
  | cons sig rest ih =>
    intro st h
    exact ih _ (processSignature_preserves chain cfg st sig s h)

/-- A signature already in the set generates no events while scanning a
list of recent signatures. -/
theorem monitorSignatures_no_events_for_seen (chain : Chain) (cfg : BotConfig)
    (s : String) :
    ∀ (sigs : List String) (st : BotState),
      st.lastProcessedSignatures.contains s = true →
      ∀ e ∈ (monitorSignatures chain cfg st sigs).2, eventSig e ≠ s := by
  intro sigs
  induction sigs with
  | nil => intro st _ e he; simp [monitorSignatures] at he
  | cons sig rest ih =>
    intro st h e he
    rcases List.mem_append.mp he with he1 | he2
    · by_cases hs : sig = s
      · subst hs
        rw [processSignature_seen chain cfg st sig h] at he1
        simp at he1
      · rw [processSignature_events_sig chain cfg st sig e he1]
        exact hs
    · exact ih _ (processSignature_preserves chain cfg st sig s h) e he2

/-- Any signature occurring in the scanned list is in the set
afterwards. -/
theorem monitorSignatures_marks (chain : Chain) (cfg : BotConfig) (s : String) :
    ∀ (sigs : List String) (st : BotState), sigs.contains s = true →
      (monitorSignatures chain cfg st sigs).1.lastProcessedSignatures.contains s = true := by
  intro sigs
  induction sigs with
  | nil => intro st h; simp at h
  | cons sig rest ih =>
    intro st h
    by_cases hs : sig = s
    · subst hs
      exact monitorSignatures_preserves chain cfg sig rest _
        (processSignature_marks chain cfg st sig)
    · have : rest.contains s = true := by
        simp at h ⊢
        rcases h with h | h
        · exact absurd h.symm hs
        · exact h
      exact ih _ this

/-- When the transaction is fetched but decoding yields no trade, no
adapter event is emitted for the signature. -/
theorem processSignature_no_order_on_parse_fail (chain : Chain) (cfg : BotConfig)
    (st : BotState) (sig : String) (tx : RawTransaction)
    (htx : chain.getTransaction sig = some tx)
    (hparse : parsePredictionMarketTransaction cfg tx = none) :
    ∀ e ∈ (processSignature chain cfg st sig).2, isOrderEvent e = false := by
  unfold processSignature
  split
  · simp
  rw [htx]
  split
  · rename_i heq
    cases heq
  · rename_i tx2 heq
    cases heq
    split
    · split
      · simp [isOrderEvent]
      · rename_i trade hsome
        rw [hparse] at hsome
        cases hsome
    · simp [isOrderEvent]

/-- Claim C1: a signature already in the processed-signature set is never
re-dispatched — inspecting it yields no state change and no events at
all (no transaction fetch, no classification, no trade parsing, no
order placement), and scanning the recent signatures of any watched
address produces no event concerning it. -/
theorem seen_signature_never_redispatched (chain : Chain) (cfg : BotConfig)
    (st : BotState) (sig addr : String)
    (h : st.lastProcessedSignatures.contains sig = true) :
    processSignature chain cfg st sig = (st, []) ∧
    ∀ e ∈ (monitorAddress chain cfg st addr).2, eventSig e ≠ sig := by
  refine ⟨processSignature_seen chain cfg st sig h, ?_⟩
  intro e he
  exact monitorSignatures_no_events_for_seen chain cfg sig
    (chain.getSignaturesForAddress addr) st h e he

/-- Witness for C1 at a concrete state and chain. -/
theorem seen_signature_never_redispatched_witness :
    processSignature okChain cfgW stSeen "S" = (stSeen, []) ∧
    ∀ e ∈ (monitorAddress okChain cfgW stSeen "A").2, eventSig e ≠ "S" :=
  seen_signature_never_redispatched okChain cfgW stSeen "S" "A" (by decide)

/-- Claim C10: the processed-signature set is keyed on the signature
alone: after monitoring address A whose recent-signature list contains
S, the signature S is in the (single, global) set, and monitoring any
other address B afterwards produces no event concerning S. -/
theorem processed_set_shared_across_addresses (chain : Chain) (cfg : BotConfig)
    (st : BotState) (sig addrA addrB : String)
    (h : (chain.getSignaturesForAddress addrA).contains sig = true) :
    (monitorAddress chain cfg st addrA).1.lastProcessedSignatures.contains sig = true ∧
    ∀ e ∈ (monitorAddress chain cfg (monitorAddress chain cfg st addrA).1 addrB).2,
      eventSig e ≠ sig := by
  have h1 := monitorSignatures_marks chain cfg sig (chain.getSignaturesForAddress addrA) st h
  refine ⟨h1, ?_⟩
  intro e he
  exact monitorSignatures_no_events_for_seen chain cfg sig
    (chain.getSignaturesForAddress addrB) _ h1 e he

/-- Witness for C10: S is in the lists of both addresses A and B. -/
theorem processed_set_shared_across_addresses_witness :
    (monitorAddress okChain cfgW st0 "A").1.lastProcessedSignatures.contains "S" = true ∧
    ∀ e ∈ (monitorAddress okChain cfgW (monitorAddress okChain cfgW st0 "A").1 "B").2,
      eventSig e ≠ "S" :=
  processed_set_shared_across_addresses okChain cfgW st0 "S" "A" "B" (by decide)

/-- Claim C7: a signature whose transaction was successfully fetched is
in the processed set afterwards, whatever the processing outcome (the
adapter may fail: the chain is arbitrary); and when decoding yields no
trade, no adapter call is made for it. -/
theorem fetched_signature_marked_seen (chain : Chain) (cfg : BotConfig)
    (st : BotState) (sig : String) (tx : RawTransaction)
    (_hnew : st.lastProcessedSignatures.contains sig = false)
    (htx : chain.getTransaction sig = some tx) :
    (processSignature chain cfg st sig).1.lastProcessedSignatures.contains sig = true ∧
    (parsePredictionMarketTransaction cfg tx = none →
      ∀ e ∈ (processSignature chain cfg st sig).2, isOrderEvent e = false) := by
  refine ⟨processSignature_marks chain cfg st sig, ?_⟩
  intro hparse
  exact processSignature_no_order_on_parse_fail chain cfg st sig tx htx hparse

/-- Witness for C7: a fetched transaction that classifies but does not
decode, against an adapter that would reject anyway. -/
theorem fetched_signature_marked_seen_witness :
    (processSignature failChain cfgW st0 "S").1.lastProcessedSignatures.contains "S" = true ∧
    ∀ e ∈ (processSignature failChain cfgW st0 "S").2, isOrderEvent e = false := by
  have h := fetched_signature_marked_seen failChain cfgW st0 "S" txUnparsable
    (by decide) (by decide)
  exact ⟨h.1, h.2 (by decide)⟩

/-- Claim C4: when, after the date-rollover step, the daily loss has
reached the cap, the whole poll cycle stops: no address is processed and
no event (fetch, parse, order) occurs in that cycle. -/
theorem daily_loss_hard_stop (chain : Chain) (cfg : BotConfig) (st : BotState)
    (today : String)
    (h : (resetDailyLossIfNeeded st today).dailyLoss ≥ cfg.maxDailyLoss) :
    monitorCycle chain cfg st today = (resetDailyLossIfNeeded st today, []) := by
  unfold monitorCycle
  rw [if_pos h]

/-- Witness for C4 with the daily loss exactly at the cap. -/
theorem daily_loss_hard_stop_witness :
    monitorCycle okChain cfgW stLoss "d1" = (resetDailyLossIfNeeded stLoss "d1", []) :=
  daily_loss_hard_stop okChain cfgW stLoss "d1"
    (by norm_num [resetDailyLossIfNeeded, stLoss, cfgW])

/-- Claim C5: at the top of a cycle, a date mismatch zeroes the daily
loss and updates the reset date, a matching date leaves the state
untouched, and the reset precedes the risk check: on a date mismatch
with a positive cap the cycle always proceeds to process addresses from
the reset state, regardless of the pre-reset loss. -/
theorem daily_reset_precedes_risk_check (st : BotState) (today : String) :
    (today ≠ st.lastResetDate →
      (resetDailyLossIfNeeded st today).dailyLoss = 0 ∧
      (resetDailyLossIfNeeded st today).lastResetDate = today) ∧
    (today = st.lastResetDate → resetDailyLossIfNeeded st today = st) ∧
    (∀ (chain : Chain) (cfg : BotConfig), today ≠ st.lastResetDate →
      0 < cfg.maxDailyLoss →
      monitorCycle chain cfg st today =
        processAddresses chain cfg
          { st with dailyLoss := 0, lastResetDate := today } cfg.targetAddresses) := by
  refine ⟨?_, ?_, ?_⟩
  · intro h
    unfold resetDailyLossIfNeeded
    rw [if_pos h]
    exact ⟨rfl, rfl⟩
  · intro h
    unfold resetDailyLossIfNeeded
    rw [if_neg (not_not_intro h)]
  · intro chain cfg h hpos
    have hr : resetDailyLossIfNeeded st today =
        { st with dailyLoss := 0, lastResetDate := today } := by
      unfold resetDailyLossIfNeeded
      rw [if_pos h]
    unfold monitorCycle
    rw [hr]
    rw [if_neg (not_le.mpr hpos)]

/-- Witness for C5: rollover from date d1 to d2 and a matching date. -/
theorem daily_reset_precedes_risk_check_witness :
    (resetDailyLossIfNeeded stLoss "d2").dailyLoss = 0 ∧
    (resetDailyLossIfNeeded stLoss "d2").lastResetDate = "d2" ∧
    resetDailyLossIfNeeded stLoss "d1" = stLoss ∧
    monitorCycle okChain cfgW stLoss "d2" =
      processAddresses okChain cfgW
        { stLoss with dailyLoss := 0, lastResetDate := "d2" } cfgW.targetAddresses := by
  have h1 := (daily_reset_precedes_risk_check stLoss "d2").1 (by decide)
  have h2 := (daily_reset_precedes_risk_check stLoss "d1").2.1 (by decide)
  have h3 := (daily_reset_precedes_risk_check stLoss "d2").2.2 okChain cfgW
    (by decide) (by norm_num [cfgW])
  exact ⟨h1.1, h1.2, h2, h3⟩

/-- Claim C3: with a position manager available, the pipeline refuses to
place any order exactly when the adjusted amount
trade.amount * copyMultiplier strictly exceeds maxPositionSize; at or
below the cap an adapter call is made. -/
theorem position_size_cap (chain : Chain) (cfg : BotConfig) (st : BotState)
    (sig : String) (trade : ParsedTrade)
    (hmgr : cfg.predictionMarketPrograms ≠ []) :
    (executeCopyTrade chain cfg st sig trade).2 = [] ↔
      cfg.maxPositionSize < trade.amount * cfg.copyMultiplier := by
  have hempty : cfg.predictionMarketPrograms.isEmpty = false := by
    simpa using hmgr
  unfold executeCopyTrade
  rw [hempty]
  simp only [Bool.false_eq_true, if_false]
  by_cases hgt : trade.amount * cfg.copyMultiplier > cfg.maxPositionSize
  · rw [if_pos hgt]
    simpa using hgt
  · rw [if_neg hgt]
    constructor
    · intro h
      simp at h
    · intro h
      exact absurd h hgt

/-- Witness for C3: the spec example — cap 1, multiplier 2, amount 0.6
denied, amount 0.4 admitted. -/
theorem position_size_cap_witness :
    (executeCopyTrade okChain cfgRisk st0 "s" trade06).2 = [] ∧
    (executeCopyTrade okChain cfgRisk st0 "s" trade04).2 ≠ [] := by
  constructor
  · exact (position_size_cap okChain cfgRisk st0 "s" trade06 (by decide)).mpr
      (by norm_num [cfgRisk, trade06])
  · intro hc
    exact absurd ((position_size_cap okChain cfgRisk st0 "s" trade04 (by decide)).mp hc)
      (by norm_num [cfgRisk, trade04])

/-- Counterexample to claim C6: at a concrete admitted (BUY, YES) trade
the dispatcher routes to the buy-YES method and makes exactly one
share-method invocation, but that method — the wired generic
PositionManager stub — makes zero underlying place-order calls and
throws instead of returning a submission signature, so no path results
in a place-order call to the ExecutionAdapter. -/
theorem routing_no_place_order_counterexample :
    sharePath c9Trade.action c9Trade.outcome = SharePath.buyYes ∧
    (executeCopyTrade okChain cfgW st0 "s" c9Trade).2 =
      [Event.shareCall "s" SharePath.buyYes "M" (1/10)] ∧
    (dispatchShareCall SharePath.buyYes "M" (1/10)).orders.length = 0 ∧
    (dispatchShareCall SharePath.buyYes "M" (1/10)).outcome =
      Except.error "Not implemented - platform-specific" := by
  refine ⟨rfl, ?_, rfl, rfl⟩
  norm_num [executeCopyTrade, okChain, cfgW, c9Trade, st0, sharePath,
    dispatchShareCall, stubBuyYesShares]

/-- Amended claim C6: for every admitted trade the dispatcher routes
(BUY, YES) to the buy-YES method, (BUY, NO) to buy-NO, (SELL, YES) to
sell-YES and (SELL, NO) to sell-NO of the wired position manager,
making exactly one share-method invocation; but each of the four
methods is the generic PositionManager stub, which throws before any
underlying place-order call, so no back/lay order reaches the
ExecutionAdapter and no submission signature is returned. -/
theorem dispatch_routing_to_stub (chain : Chain) (cfg : BotConfig) (st : BotState)
    (sig : String) (trade : ParsedTrade)
    (hmgr : cfg.predictionMarketPrograms ≠ [])
    (hadm : trade.amount * cfg.copyMultiplier ≤ cfg.maxPositionSize) :
    (trade.action = Action.BUY → trade.outcome = Outcome.YES →
      sharePath trade.action trade.outcome = SharePath.buyYes) ∧
    (trade.action = Action.BUY → trade.outcome = Outcome.NO →
      sharePath trade.action trade.outcome = SharePath.buyNo) ∧
    (trade.action = Action.SELL → trade.outcome = Outcome.YES →
      sharePath trade.action trade.outcome = SharePath.sellYes) ∧
    (trade.action = Action.SELL → trade.outcome = Outcome.NO →
      sharePath trade.action trade.outcome = SharePath.sellNo) ∧
    (executeCopyTrade chain cfg st sig trade).2 =
      [Event.shareCall sig (sharePath trade.action trade.outcome) trade.marketAddress
        (trade.amount * cfg.copyMultiplier)] ∧
    (dispatchShareCall (sharePath trade.action trade.outcome) trade.marketAddress
        (trade.amount * cfg.copyMultiplier)).orders = [] ∧
    (dispatchShareCall (sharePath trade.action trade.outcome) trade.marketAddress
        (trade.amount * cfg.copyMultiplier)).outcome =
      Except.error "Not implemented - platform-specific" := by
  have hempty : cfg.predictionMarketPrograms.isEmpty = false := by
    simpa using hmgr
  have hnotgt : ¬ trade.amount * cfg.copyMultiplier > cfg.maxPositionSize :=
    not_lt.mpr hadm
  refine ⟨?_, ?_, ?_, ?_, ?_, ?_, ?_⟩
  · intro h1 h2
    rw [h1, h2]
    rfl
  · intro h1 h2
    rw [h1, h2]
    rfl
  · intro h1 h2
    rw [h1, h2]
    rfl
  · intro h1 h2
    rw [h1, h2]
    rfl
  · unfold executeCopyTrade
    rw [hempty]
    simp only [Bool.false_eq_true, if_false]
    rw [if_neg hnotgt]
    simp [dispatchShareCall_stub]
  · rw [dispatchShareCall_stub]
  · rw [dispatchShareCall_stub]

/-- Witness for the amended C6 at a concrete admitted BUY YES trade. -/
theorem dispatch_routing_to_stub_witness :
    (executeCopyTrade okChain cfgW st0 "s" c9Trade).2 =
      [Event.shareCall "s" (sharePath c9Trade.action c9Trade.outcome) c9Trade.marketAddress
        (c9Trade.amount * cfgW.copyMultiplier)] :=
  (dispatch_routing_to_stub okChain cfgW st0 "s" c9Trade (by decide)
    (by norm_num [c9Trade, cfgW])).2.2.2.2.1

/-- Counterexample to claim C2: the admitted BUY trade with source
price 0.50 passes the risk gate (its share-method invocation is in the
trace) but results in zero dispatched orders — the wired share method
throws before computing any price — so no limit price of
0.505 = 0.50 x 1.01 (nor any other) is ever dispatched, against the
claim; specLimitPrice records the price the spec expected. -/
theorem price_band_counterexample :
    (executeCopyTrade okChain cfgW st0 "s" c2Trade).2 =
      [Event.shareCall "s" SharePath.buyYes "M" (1/10)] ∧
    (executeCopyTrade okChain cfgW st0 "s" c2Trade).2.filter isAdapterOrderEvent = [] ∧
    (dispatchShareCall SharePath.buyYes "M" (1/10)).orders = [] ∧
    (dispatchShareCall SharePath.buyYes "M" (1/10)).outcome =
      Except.error "Not implemented - platform-specific" ∧
    specLimitPrice c2Trade.action c2Trade.price = 101/200 := by
  have h1 : (executeCopyTrade okChain cfgW st0 "s" c2Trade).2 =
      [Event.shareCall "s" SharePath.buyYes "M" (1/10)] := by
    norm_num [executeCopyTrade, okChain, cfgW, c2Trade, st0, sharePath,
      dispatchShareCall, stubBuyYesShares]
  refine ⟨h1, ?_, rfl, rfl, ?_⟩
  · rw [h1]
    rfl
  · norm_num [specLimitPrice, c2Trade]

/-- Amended claim C2: no admitted trade results in a dispatched order
or a limit price at all — the wired position manager share methods
throw before any price computation or place-order call, so neither the
source price nor the 0.99/0.01 protocol defaults are ever applied by
the program. -/
theorem no_dispatched_limit_price (chain : Chain) (cfg : BotConfig) (st : BotState)
    (sig : String) (trade : ParsedTrade) :
    (executeCopyTrade chain cfg st sig trade).2.filter isAdapterOrderEvent = [] ∧
    ∀ (path : SharePath) (marketAddress : String) (amount : ℚ),
      (dispatchShareCall path marketAddress amount).orders = [] ∧
      (dispatchShareCall path marketAddress amount).outcome =
        Except.error "Not implemented - platform-specific" := by
  constructor
  · unfold executeCopyTrade
    split
    · rfl
    split
    · rfl
    · simp [dispatchShareCall_stub, isAdapterOrderEvent]
  · intro path marketAddress amount
    rw [dispatchShareCall_stub]
    exact ⟨rfl, rfl⟩

/-- Counterexample to claim C8: a transaction mentioning the configured
program only as a direct per-instruction program reference satisfies the
claim condition but is classified false — the classifier inspects only
the top-level account list. -/
theorem classifier_misses_direct_program_reference :
    mentionsConfiguredProgram cfgW txDirectOnly = true ∧
    isPredictionMarketTransaction cfgW txDirectOnly = false := by
  refine ⟨by decide, by decide⟩

/-- Amended claim C8: the classifier returns true for every transaction
whose top-level account list contains a configured program identifier at
any position (which covers instruction program references given as an
index into that list); an identifier appearing only as a direct
per-instruction value outside the account list is not detected. -/
theorem classifier_detects_account_list_entry (cfg : BotConfig) (tx : RawTransaction)
    (h : ∃ k ∈ tx.accountKeys, cfg.predictionMarketPrograms.contains k = true) :
    isPredictionMarketTransaction cfg tx = true := by
  obtain ⟨k, hk, hkp⟩ := h
  have hmem : k ∈ tx.accountKeys.filter
      (fun id => cfg.predictionMarketPrograms.contains id) :=
    List.mem_filter.mpr ⟨hk, hkp⟩
  simp only [isPredictionMarketTransaction, decide_eq_true_eq]
  exact List.length_pos.mpr (List.ne_nil_of_mem hmem)

/-- Witness for the amended C8: the program id is account 0 of the
transaction. -/
theorem classifier_detects_account_list_entry_witness :
    isPredictionMarketTransaction cfgW txGood = true :=
  classifier_detects_account_list_entry cfgW txGood ⟨"PROG", by decide, by decide⟩

/-- Claim C9 evaluated against the code: the state (and so the daily
loss) is unchanged on every path of `executeCopyTrade`, and at the
failing input — an admitted trade of amount 0.1 whose execution fails
(the wired share method throws, landing in the catch block whose
daily-loss update is commented out) — the attempt is recorded, the
share call errors, and dailyLoss stays 0, where the claim (and the
comment in the source catch block) requires it to increase by the trade
size. -/
theorem daily_loss_unchanged_on_adapter_failure :
    (∀ (chain : Chain) (cfg : BotConfig) (st : BotState) (sig : String)
      (trade : ParsedTrade),
      (executeCopyTrade chain cfg st sig trade).1.dailyLoss = st.dailyLoss) ∧
    (executeCopyTrade failChain cfgW st0 "s" c9Trade).2 =
      [Event.shareCall "s" SharePath.buyYes "M" (1/10)] ∧
    (dispatchShareCall SharePath.buyYes "M" (1/10)).outcome =
      Except.error "Not implemented - platform-specific" ∧
    (executeCopyTrade failChain cfgW st0 "s" c9Trade).1.dailyLoss = 0 := by
  refine ⟨?_, ?_, rfl, ?_⟩
  · intro chain cfg st sig trade
    rw [executeCopyTrade_fst]
  · norm_num [executeCopyTrade, failChain, cfgW, c9Trade, st0, sharePath,
      dispatchShareCall, stubBuyYesShares]
  · rw [executeCopyTrade_fst]
    rfl

end CopyBot
